import Mathlib

/-!
Verification of the text-to-pptx backend core: the multi-provider LLM
adapter (`backend/llm_providers.py`), the deck schema (`backend/models.py`)
and the template slide builder (`backend/pptx_builder.py`).

The Python code is shallowly embedded: pure helpers become Lean functions,
the HTTP transport becomes an explicit environment mapping each outbound
network call to its outcome, Python exceptions become `Except`/`Option`
results, and the tenacity retry decorator becomes an explicit bounded loop.
Machine text is `String` (ASCII-faithful: `Char.toLower`, `String.trim`
agree with Python `str.lower`/`str.strip` on the ASCII inputs exercised
here), byte blobs are `List Nat`, and JSON numbers are idealised as `ℚ`.
-/

set_option linter.unusedVariables false

/-- Backtick character, built explicitly. -/
def btick : Char := Char.ofNat 96

/-- Opening curly brace character. -/
def lbr : Char := Char.ofNat 123

/-- Closing curly brace character. -/
def rbr : Char := Char.ofNat 125

/-- Apostrophe character. -/
def apos : Char := Char.ofNat 39

/-- JSON values as produced by Python `json.loads` (dicts keep insertion
order; duplicate keys are resolved at lookup time, last one winning). -/
inductive JVal where
  | null : JVal
  | jbool : Bool → JVal
  | jnum : ℚ → JVal
  | jstr : String → JVal
  | jarr : List JVal → JVal
  | jobj : List (String × JVal) → JVal

/-- Prefix test on character lists (first argument is the candidate
prefix). -/
def startsWithL : List Char → List Char → Bool
  | [], _ => true
  | _ :: _, [] => false
  | a :: as, b :: bs => a = b && startsWithL as bs

/-- Contiguous-substring test on character lists (`needle in hay` in
Python). -/
def containsSub (hay needle : List Char) : Bool :=
  match hay with
  | [] => needle.isEmpty
  | _ :: rest => startsWithL needle hay || containsSub rest needle

/-- JSON whitespace accepted by `json.loads` around tokens. -/
def jws (c : Char) : Bool := c = ' ' || c = '\t' || c = '\n' || c = '\r'

/-- Numeric value of a hex digit, if any. -/
def hexV (c : Char) : Option Nat :=
  if c.isDigit then some (c.toNat - 48)
  else if 'a' ≤ c ∧ c ≤ 'f' then some (c.toNat - 87)
  else if 'A' ≤ c ∧ c ≤ 'F' then some (c.toNat - 55)
  else none

/-- Natural number denoted by a list of decimal digit characters. -/
def natOfDigits (ds : List Char) : Nat :=
  ds.foldl (fun a c => a * 10 + (c.toNat - 48)) 0

/-- Body of a JSON string literal (after the opening quote): processes
escapes and stops at the closing quote.  Fuel-bounded; callers supply
ample fuel. -/
def parseStrAux : Nat → List Char → List Char → Option (String × List Char)
  | 0, _, _ => none
  | _, _, [] => none
  | fuel + 1, acc, c :: rest =>
    if c = '\"' then some (String.mk acc.reverse, rest)
    else if c = '\\' then
      match rest with
      | [] => none
      | e :: r2 =>
        if e = '\"' then parseStrAux fuel ('\"' :: acc) r2
        else if e = '\\' then parseStrAux fuel ('\\' :: acc) r2
        else if e = '/' then parseStrAux fuel ('/' :: acc) r2
        else if e = 'b' then parseStrAux fuel ('\x08' :: acc) r2
        else if e = 'f' then parseStrAux fuel ('\x0C' :: acc) r2
        else if e = 'n' then parseStrAux fuel ('\n' :: acc) r2
        else if e = 'r' then parseStrAux fuel ('\x0D' :: acc) r2
        else if e = 't' then parseStrAux fuel ('\t' :: acc) r2
        else if e = 'u' then
          match r2 with
          | h1 :: h2 :: h3 :: h4 :: r3 =>
            match hexV h1, hexV h2, hexV h3, hexV h4 with
            | some a, some b, some c2, some d =>
              parseStrAux fuel (Char.ofNat (((a * 16 + b) * 16 + c2) * 16 + d) :: acc) r3
            | _, _, _, _ => none
          | _ => none
        else none
    else if c.toNat < 32 then none
    else parseStrAux fuel (c :: acc) rest

/-- Fraction digits of a JSON number (empty when there is no fraction
part); `none` on a bare decimal point, which `json.loads` rejects. -/
def parseFrac : List Char → Option (List Char × List Char)
  | [] => some ([], [])
  | c :: rest =>
    if c = '.' then
      let f := rest.takeWhile Char.isDigit
      if f.isEmpty then none else some (f, rest.dropWhile Char.isDigit)
    else some ([], c :: rest)

/-- Exponent of a JSON number (0 when absent); `none` on a bare `e`. -/
def parseExp : List Char → Option (Int × List Char)
  | [] => some (0, [])
  | c :: rest =>
    if c = 'e' ∨ c = 'E' then
      let (sgn, r2) : Int × List Char :=
        match rest with
        | [] => (1, rest)
        | s :: r =>
          if s = '+' then (1, r) else if s = '-' then (-1, r) else (1, rest)
      let ds := r2.takeWhile Char.isDigit
      if ds.isEmpty then none
      else some (sgn * (natOfDigits ds : Int), r2.dropWhile Char.isDigit)
    else some (0, c :: rest)

/-- Rational denoted by sign, integer digits, fraction digits and decimal
exponent. -/
def mkNum (neg : Bool) (intDs fracDs : List Char) (e : Int) : ℚ :=
  let m : ℚ := (natOfDigits (intDs ++ fracDs) : ℚ)
  let q := m * (10 : ℚ) ^ (e - (fracDs.length : Int))
  if neg then -q else q

/-- JSON number per `json.loads`: optional minus, integer part without
leading zeros, optional fraction, optional exponent. -/
def parseNum (cs : List Char) : Option (ℚ × List Char) :=
  let (neg, cs1) : Bool × List Char :=
    match cs with
    | [] => (false, cs)
    | c :: rest => if c = '-' then (true, rest) else (false, cs)
  match cs1 with
  | [] => none
  | d :: _ =>
    if !d.isDigit then none
    else
      let intDs := cs1.takeWhile Char.isDigit
      let cs2 := cs1.dropWhile Char.isDigit
      if intDs.length > 1 && intDs.head? = some '0' then none
      else
        match parseFrac cs2 with
        | none => none
        | some (fracDs, cs3) =>
          match parseExp cs3 with
          | none => none
          | some (e, cs4) => some (mkNum neg intDs fracDs e, cs4)

mutual

/-- JSON value parser (recursive descent on characters, fuel-bounded).
Models `json.loads` on the ASCII inputs used in this development. -/
def parseV : Nat → List Char → Option (JVal × List Char)
  | 0, _ => none
  | fuel + 1, cs0 =>
    let cs := cs0.dropWhile jws
    match cs with
    | [] => none
    | c :: rest =>
      if c = lbr then parseObjStart fuel rest
      else if c = '[' then parseArrStart fuel rest
      else if c = '\"' then
        match parseStrAux (rest.length + 1) [] rest with
        | some (s, r2) => some (.jstr s, r2)
        | none => none
      else if startsWithL ['t', 'r', 'u', 'e'] cs then some (.jbool true, cs.drop 4)
      else if startsWithL ['f', 'a', 'l', 's', 'e'] cs then some (.jbool false, cs.drop 5)
      else if startsWithL ['n', 'u', 'l', 'l'] cs then some (.null, cs.drop 4)
      else
        match parseNum cs with
        | some (q, r2) => some (.jnum q, r2)
        | none => none

/-- Array body after `[`. -/
def parseArrStart : Nat → List Char → Option (JVal × List Char)
  | 0, _ => none
  | fuel + 1, cs0 =>
    let cs := cs0.dropWhile jws
    match cs with
    | [] => none
    | c :: rest =>
      if c = ']' then some (.jarr [], rest)
      else
        match parseV fuel cs with
        | some (v, r2) => parseArrRest fuel [v] r2
        | none => none

/-- Array items after the first one. -/
def parseArrRest : Nat → List JVal → List Char → Option (JVal × List Char)
  | 0, _, _ => none
  | fuel + 1, acc, cs0 =>
    let cs := cs0.dropWhile jws
    match cs with
    | [] => none
    | c :: rest =>
      if c = ',' then
        match parseV fuel rest with
        | some (v, r2) => parseArrRest fuel (v :: acc) r2
        | none => none
      else if c = ']' then some (.jarr acc.reverse, rest)
      else none

/-- Object body after the opening brace. -/
def parseObjStart : Nat → List Char → Option (JVal × List Char)
  | 0, _ => none
  | fuel + 1, cs0 =>
    let cs := cs0.dropWhile jws
    match cs with
    | [] => none
    | c :: rest =>
      if c = rbr then some (.jobj [], rest)
      else if c = '\"' then
        match parseStrAux (rest.length + 1) [] rest with
        | some (k, r2) => parseMember fuel k [] r2
        | none => none
      else none

/-- Colon and value of one object member. -/
def parseMember : Nat → String → List (String × JVal) → List Char →
    Option (JVal × List Char)
  | 0, _, _, _ => none
  | fuel + 1, k, acc, cs0 =>
    let cs := cs0.dropWhile jws
    match cs with
    | [] => none
    | c :: rest =>
      if c = ':' then
        match parseV fuel rest with
        | some (v, r2) => parseObjRest fuel ((k, v) :: acc) r2
        | none => none
      else none

/-- Object members after the first one. -/
def parseObjRest : Nat → List (String × JVal) → List Char → Option (JVal × List Char)
  | 0, _, _ => none
  | fuel + 1, acc, cs0 =>
    let cs := cs0.dropWhile jws
    match cs with
    | [] => none
    | c :: rest =>
      if c = ',' then
        let r2 := rest.dropWhile jws
        match r2 with
        | [] => none
        | q :: r3 =>
          if q = '\"' then
            match parseStrAux (r3.length + 1) [] r3 with
            | some (k, r4) => parseMember fuel k acc r4
            | none => none
          else none
      else if c = rbr then some (.jobj acc.reverse, rest)
      else none

end

/-- Function `json.loads`: parse a whole string as one JSON value, allowing only
whitespace around it.  `none` models `json.JSONDecodeError`.  The fuel is
ample: the parser consumes at least one character per two fuel steps. -/
def jsonParse (s : String) : Option JVal :=
  match parseV (4 * s.length + 8) s.data with
  | some (j, rest) => if (rest.dropWhile jws).isEmpty then some j else none
  | none => none

/-! ## `_extract_json_maybe` (llm_providers.py lines 28-41)

The two regular expressions of the source are embedded directly:
`re.search` scans start positions left to right, the lazy group of the
fenced pattern takes the shortest body whose closing brace is followed by
optional whitespace and a closing fence, and the greedy pattern spans from
the first opening brace to the last closing brace of the whole text. -/

/-- Whitespace class of Python `re` (`\s`) on ASCII text. -/
def isPyWs (c : Char) : Bool :=
  c = ' ' || c = '\t' || c = '\n' || c = '\x0D' || c = '\x0C' || c = '\x0B'

/-- The literal part of the fenced pattern, matched case-insensitively. -/
def fenceOpenPat : List Char := [btick, btick, btick, 'j', 's', 'o', 'n']

/-- Case-insensitive literal match; returns the rest of the input. -/
def matchCI : List Char → List Char → Option (List Char)
  | [], cs => some cs
  | _ :: _, [] => none
  | p :: ps, c :: cs => if c.toLower = p.toLower then matchCI ps cs else none

/-- After the group closes, the pattern requires optional whitespace then a
closing fence of three backticks. -/
def closeFenceOk (cs : List Char) : Bool :=
  startsWithL [btick, btick, btick] (cs.dropWhile isPyWs)

/-- Lazy body of the fenced group: shortest run of characters up to a
closing brace that is followed by a valid closing fence. -/
def lazyBody : Nat → List Char → List Char → Option (List Char)
  | 0, _, _ => none
  | _, _, [] => none
  | fuel + 1, acc, c :: rest =>
    if c = rbr && closeFenceOk rest then some acc.reverse
    else lazyBody fuel (c :: acc) rest

/-- Try the fenced pattern anchored at the start of `cs`; on success
returns the captured group (an outer brace pair with its lazy body). -/
def tryFenceAt (cs : List Char) : Option (List Char) :=
  match matchCI fenceOpenPat cs with
  | none => none
  | some r1 =>
    let r2 := r1.dropWhile isPyWs
    match r2 with
    | [] => none
    | c :: r3 =>
      if c = lbr then
        match lazyBody (r3.length + 1) [] r3 with
        | some body => some (lbr :: (body ++ [rbr]))
        | none => none
      else none

/-- Search of `re.search` for the fenced pattern: leftmost start position wins. -/
def fenceSearch : List Char → Option (List Char)
  | [] => none
  | cs@(_ :: rest) =>
    match tryFenceAt cs with
    | some g => some g
    | none => fenceSearch rest

/-- Index of the first occurrence of `c`, counting from `i`. -/
def firstIdxFrom : List Char → Char → Nat → Option Nat
  | [], _, _ => none
  | x :: xs, c, i => if x = c then some i else firstIdxFrom xs c (i + 1)

/-- Index of the last occurrence of `c`. -/
def lastIdxOf (cs : List Char) (c : Char) : Option Nat :=
  (firstIdxFrom cs.reverse c 0).map (fun k => cs.length - 1 - k)

/-- Greedy brace pattern of the source, second strategy: the span from the
first opening brace to the last closing brace, when the latter comes
after the former. -/
def braceGroup (t : List Char) : Option (List Char) :=
  match firstIdxFrom t lbr 0, lastIdxOf t rbr with
  | some i, some j => if i < j then some ((t.drop i).take (j - i + 1)) else none
  | _, _ => none

/-- Errors raised by `_extract_json_maybe`: the guard for empty input
(`ValueError`) and a failed `json.loads` (`JSONDecodeError`). -/
inductive ExtractErr where
  | emptyInput : ExtractErr
  | parseFailed : ExtractErr
deriving DecidableEq

/-- Run `json.loads` on a candidate, with its failure mapped to the
extraction error. -/
def parseOrFail (g : List Char) : Except ExtractErr JVal :=
  match jsonParse (String.mk g) with
  | some j => .ok j
  | none => .error .parseFailed

/-- Function `_extract_json_maybe`: fenced-block strategy, then greedy brace
strategy, then the whole string; a strategy is skipped only when its
pattern does not match, and a matched candidate that fails to parse
raises without trying later strategies. -/
def extract_json_maybe (t : String) : Except ExtractErr JVal :=
  if t = "" then .error .emptyInput
  else
    match fenceSearch t.data with
    | some g => parseOrFail g
    | none =>
      match braceGroup t.data with
      | some g => parseOrFail g
      | none => parseOrFail t.data

/-! ## Provider adapter (llm_providers.py lines 12-155)

One network call is one entry of an environment `Nat → HttpOutcome`
indexed by a global outbound-call counter.  Each attempt of a supported
provider issues exactly one POST; the unsupported-provider branch raises
before any call.  The tenacity decorator
`retry(stop=stop_after_attempt(3), wait=wait_exponential_jitter(initial=1, max=8))`
retries every exception (its default retry predicate), sleeps between
attempts, and after the third failure raises a `RetryError` wrapping the
final attempt's exception (its default is `reraise=False`).  Jitter is a
caller-supplied `Nat → ℚ` standing for `random.uniform(0, 1)` draws. -/

/-- The fixed system instruction (`SYSTEM_PROMPT`). -/
def SYSTEM_PROMPT : String :=
  "You convert long text or Markdown into a concise, well-structured slide deck. " ++
  "You MUST answer as strict JSON with keys: slides:[\x7btitle, bullets[], layout_hint, notes\x7d], tone, use_case. " ++
  "Pick a reasonable number of slides (5–20) depending on length and guidance. " ++
  "Each slide: short title, 3–6 bullets max. Always include speaker notes (1–3 short paragraphs)."

/-- Python string slicing `s[:n]` (by code points). -/
def pyTake (s : String) (n : Nat) : String := String.mk (s.data.take n)

/-- Result of `USER_PROMPT_TMPL.format(raw_text=..., guidance=...)` after the
truncations `raw_text[:60000]` and `guidance[:200]`. -/
def userMessage (rawText guidance : String) : String :=
  "Input text (can be Markdown):\n\n" ++ pyTake rawText 60000 ++
  "\n\nGuidance/tone/use-case (optional): " ++ pyTake guidance 200 ++
  "\n\nReturn STRICT JSON only, no prose."

/-- The request payload built at the top of `generate_slide_outline`. -/
structure Payload where
  system : String
  user : String
deriving DecidableEq

/-- The three supported providers. -/
inductive Provider where
  | openai : Provider
  | anthropic : Provider
  | gemini : Provider
deriving DecidableEq

/-- Provider label used in HTTP error messages. -/
def labelOf : Provider → String
  | .openai => "OpenAI-compatible"
  | .anthropic => "Anthropic"
  | .gemini => "Gemini"

/-- Python `str.lower` (ASCII case mapping; the inputs exercised here
are ASCII). -/
def pyLower (s : String) : String := String.mk (s.data.map Char.toLower)

/-- Python `str.strip()`: remove leading and trailing whitespace. -/
def pyStrip (s : String) : String :=
  String.mk (((s.data.dropWhile isPyWs).reverse.dropWhile isPyWs).reverse)

/-- Dispatch on `(provider or "").strip().lower()`. -/
def providerOf (p : String) : Option Provider :=
  let n := pyLower (pyStrip p)
  if n = "openai" then some .openai
  else if n = "anthropic" then some .anthropic
  else if n = "gemini" then some .gemini
  else none

/-- Per-provider default model (`model or default`). -/
def defaultModel : Provider → String → String
  | .openai, m => if m = "" then "gpt-4o-mini" else m
  | .anthropic, m => if m = "" then "claude-3-5-sonnet-latest" else m
  | .gemini, m => if m = "" then "gemini-1.5-pro" else m

/-- Suffix test on strings. -/
def endsWithStr (s suffix : String) : Bool :=
  startsWithL suffix.data.reverse s.data.reverse

/-- Python `str.rstrip("/")`. -/
def rstripSlash (s : String) : String :=
  String.mk (s.data.reverse.dropWhile (fun c => c = '/')).reverse

/-- Variable `OPENAI_BASE` modelled at its default value (the environment variable
override is ambient process state outside this embedding). -/
def openaiBase : String := "https://api.openai.com/v1"

/-- URL normalisation of `_call_openai`. -/
def openaiUrl (base : String) : String :=
  if endsWithStr base "/chat/completions" then base
  else rstripSlash base ++ "/chat/completions"

/-- The outbound request data preserved inside raised HTTP errors. -/
structure PyRequest where
  url : String
  userContent : String
deriving DecidableEq

/-- Request issued by one attempt of a given provider strategy. -/
def requestOf (pr : Provider) (model apiKey : String) (p : Payload) : PyRequest :=
  match pr with
  | .openai => ⟨openaiUrl openaiBase, p.user⟩
  | .anthropic => ⟨"https://api.anthropic.com/v1/messages", p.user⟩
  | .gemini =>
    ⟨"https://generativelanguage.googleapis.com/v1beta/models/" ++ model ++
      ":generateContent?key=" ++ apiKey, p.user⟩

/-- An HTTP response as seen by the adapter. -/
structure HttpResponse where
  status : Nat
  body : String
deriving DecidableEq

/-- Outcome of one outbound network call. -/
inductive HttpOutcome where
  | networkFailure : HttpOutcome
  | response : HttpResponse → HttpOutcome

/-- Message of `_raise_for_provider_error`:
`f"{provider_label} HTTP {resp.status_code}: {resp.text[:500]}"`. -/
def providerErrorMessage (label : String) (r : HttpResponse) : String :=
  label ++ " HTTP " ++ toString r.status ++ ": " ++ pyTake r.body 500

/-- Exceptions one attempt can raise.  `httpStatus` carries the formatted
message together with the original request and response
(`httpx.HTTPStatusError(msg, request=..., response=...)`). -/
inductive AttemptErr where
  | unsupportedProvider : AttemptErr
  | networkError : AttemptErr
  | httpStatus : String → PyRequest → HttpResponse → AttemptErr
  | envelopeError : String → AttemptErr
  | noCandidates : AttemptErr
  | emptyParts : AttemptErr
  | emptyResponse : AttemptErr
  | parseFailed : AttemptErr
deriving DecidableEq

/-- Dictionary lookup with Python semantics (last duplicate key wins). -/
def jLookup (fields : List (String × JVal)) (k : String) : Option JVal :=
  fields.foldl (fun acc kv => if kv.1 = k then some kv.2 else acc) none

/-- Path `j["choices"][0]["message"]["content"]` of the OpenAI-compatible
envelope; any missing key, empty array or non-string content is an
exception (KeyError / IndexError / TypeError), retried like the rest. -/
def openaiExtractContent (j : JVal) : Except AttemptErr String :=
  match j with
  | .jobj fs =>
    match jLookup fs "choices" with
    | some (.jarr (c :: _)) =>
      match c with
      | .jobj cf =>
        match jLookup cf "message" with
        | some (.jobj mf) =>
          match jLookup mf "content" with
          | some (.jstr s) => .ok s
          | _ => .error (.envelopeError "content")
        | _ => .error (.envelopeError "message")
      | _ => .error (.envelopeError "choice")
    | _ => .error (.envelopeError "choices")
  | _ => .error (.envelopeError "body")

/-- Join `"".join(blk.get("text", "") for blk in j.get("content", []))` of the
Anthropic envelope; a non-object block or non-string text raises. -/
def anthropicJoin : List JVal → Option String
  | [] => some ""
  | b :: rest =>
    match b with
    | .jobj fs =>
      match jLookup fs "text", anthropicJoin rest with
      | some (.jstr s), some r => some (s ++ r)
      | none, some r => some r
      | _, _ => none
    | _ => none

/-- Anthropic content extraction. -/
def anthropicContent (j : JVal) : Except AttemptErr String :=
  match j with
  | .jobj fs =>
    match jLookup fs "content" with
    | none => .ok ""
    | some (.jarr bs) =>
      match anthropicJoin bs with
      | some s => .ok s
      | none => .error (.envelopeError "content blocks")
    | some _ => .error (.envelopeError "content")
  | _ => .error (.envelopeError "body")

/-- Python truthiness on JSON values. -/
def jFalsy : JVal → Bool
  | .null => true
  | .jbool b => !b
  | .jnum q => q = 0
  | .jstr s => s = ""
  | .jarr l => l.isEmpty
  | .jobj l => l.isEmpty

/-- Gemini content extraction: explicit no-candidates and empty-parts
checks, then `parts[0].get("text", "")`. -/
def geminiContent (j : JVal) : Except AttemptErr String :=
  match j with
  | .jobj fs =>
    match jLookup fs "candidates" with
    | none => .error .noCandidates
    | some cv =>
      if jFalsy cv then .error .noCandidates
      else
        match cv with
        | .jarr (cand :: _) =>
          match cand with
          | .jobj cf =>
            match (jLookup cf "content").getD (.jobj []) with
            | .jobj cc =>
              let partsV := (jLookup cc "parts").getD (.jarr [])
              if jFalsy partsV then .error .emptyParts
              else
                match partsV with
                | .jarr (p0 :: _) =>
                  match p0 with
                  | .jobj pf =>
                    match jLookup pf "text" with
                    | some (.jstr t) => .ok t
                    | none => .ok ""
                    | some _ => .error (.envelopeError "text")
                  | _ => .error (.envelopeError "part")
                | _ => .error (.envelopeError "parts")
            | _ => .error (.envelopeError "candidate content")
          | _ => .error (.envelopeError "candidate")
        | _ => .error (.envelopeError "candidates")
  | _ => .error (.envelopeError "body")

/-- Function `_extract_json_maybe` applied to extracted content, with its errors
mapped into attempt exceptions. -/
def runExtract (s : String) : Except AttemptErr JVal :=
  match extract_json_maybe s with
  | .ok j => .ok j
  | .error .emptyInput => .error .emptyResponse
  | .error .parseFailed => .error .parseFailed

/-- One attempt of one provider strategy (`_call_openai` /
`_call_anthropic` / `_call_gemini`): issue the POST, raise the provider
error on `status_code >= 400`, parse the response body, extract the
model text from the provider envelope, extract JSON from the text. -/
def attemptOnce (pr : Provider) (model apiKey : String) (p : Payload)
    (out : HttpOutcome) : Except AttemptErr JVal :=
  match out with
  | .networkFailure => .error .networkError
  | .response r =>
    if r.status ≥ 400 then
      .error (.httpStatus (providerErrorMessage (labelOf pr) r)
        (requestOf pr model apiKey p) r)
    else
      match jsonParse r.body with
      | none => .error (.envelopeError "response body")
      | some j =>
        match (match pr with
               | .openai => openaiExtractContent j
               | .anthropic => anthropicContent j
               | .gemini => geminiContent j) with
        | .ok s => runExtract s
        | .error e => .error e

/-- Wait of `wait_exponential_jitter(initial=1, max=8)` after attempt `n`
(1-based): `max(0, min(initial * 2^(n-1) + uniform(0, 1), max))`. -/
def tenacityWait (attemptNumber : Nat) (j : ℚ) : ℚ :=
  max 0 (min ((2 : ℚ) ^ (attemptNumber - 1) + j) 8)

/-- What `generate_slide_outline` can raise to its caller: tenacity's
`RetryError` wrapping the final attempt's exception (the decorator's
default `reraise=False`), or — under `reraise=True`, which this code does
not set — the final attempt's exception itself. -/
inductive OutlineError where
  | raw : AttemptErr → OutlineError
  | retryError : AttemptErr → OutlineError
deriving DecidableEq

/-- The tenacity loop around the decorated body: run an attempt, return
its value on success; on an exception, if attempts remain, record the
backoff sleep and go again, otherwise raise `RetryError` wrapping the
exception of this (final) attempt.  `step` maps the number of network
calls already made to the attempt result plus the calls it consumed; the
returned triple is (outcome, total network calls, sleeps performed). -/
def retryGo (step : Nat → Except AttemptErr JVal × Nat) (jit : Nat → ℚ) :
    Nat → Nat → Nat → List ℚ → Except OutlineError JVal × Nat × List ℚ
  | budget, attemptNum, calls, waits =>
    match step calls with
    | (.ok j, c) => (.ok j, calls + c, waits)
    | (.error e, c) =>
      match budget with
      | 0 => (.error (.retryError e), calls + c, waits)
      | b + 1 =>
        retryGo step jit b (attemptNum + 1) (calls + c)
          (waits ++ [tenacityWait attemptNum (jit attemptNum)])

/-- The decorated body of `generate_slide_outline` as one retryable step:
normalise the provider string, dispatch, and for a supported provider
issue exactly one network call. -/
def stepOnce (provider model apiKey : String) (p : Payload)
    (env : Nat → HttpOutcome) (callsBefore : Nat) :
    Except AttemptErr JVal × Nat :=
  match providerOf provider with
  | none => (.error .unsupportedProvider, 0)
  | some pr => (attemptOnce pr (defaultModel pr model) apiKey p (env callsBefore), 1)

/-- Function `generate_slide_outline` under the retry decorator
(`stop_after_attempt(3)`): at most 3 attempts, backoff sleeps between
them, `RetryError` after exhaustion. -/
def generate_slide_outline (provider model apiKey rawText guidance : String)
    (env : Nat → HttpOutcome) (jit : Nat → ℚ) :
    Except OutlineError JVal × Nat × List ℚ :=
  retryGo (stepOnce provider model apiKey ⟨SYSTEM_PROMPT, userMessage rawText guidance⟩ env)
    jit 2 1 0 []

/-! ## Deck schema (models.py)

Pydantic validation of one slide: `title` is a required string of at most
120 characters, `bullets` defaults to `[]` and is clamped by the
`clamp_bullets` field validator, `layout_hint` is optional with default
"Title and Content", `notes` is optional with default `None`.  `none`
models a `ValidationError`. -/

/-- A validated slide. -/
structure Slide where
  title : String
  bullets : List String
  layout_hint : Option String
  notes : Option String
deriving DecidableEq

/-- A JSON value accepted for a `str` field. -/
def asStr : JVal → Option String
  | .jstr s => some s
  | _ => none

/-- The `clamp_bullets` field validator: keep the first 8 bullets. -/
def clamp_bullets (v : List String) : List String := v.take 8

/-- An `Optional[str]` field with a default: absent takes the default,
`null` becomes `none`, a string stays, anything else fails. -/
def optStrField (fields : List (String × JVal)) (k : String)
    (dflt : Option String) : Option (Option String) :=
  match jLookup fields k with
  | none => some dflt
  | some .null => some none
  | some (.jstr s) => some (some s)
  | some _ => none

/-- Validation `Slide.model_validate` on an untyped JSON value. -/
def validateSlide (raw : JVal) : Option Slide :=
  match raw with
  | .jobj fs =>
    match jLookup fs "title" with
    | some (.jstr t) =>
      if t.length ≤ 120 then
        let bulletsRaw : Option (List String) :=
          match jLookup fs "bullets" with
          | none => some []
          | some (.jarr xs) => xs.mapM asStr
          | some _ => none
        match bulletsRaw with
        | none => none
        | some bl =>
          match optStrField fs "layout_hint" (some "Title and Content"),
                optStrField fs "notes" none with
          | some lh, some nt => some ⟨t, clamp_bullets bl, lh, nt⟩
          | _, _ => none
      else none
    | _ => none
  | _ => none

/-! ## Template slide builder (pptx_builder.py)

The opaque presentation document is reduced to what the builder touches:
layouts carry a name and the placeholder kinds the code inspects, the
existing slides of the template are a scan of picture shapes, and fallible
python-pptx operations are driven by a failure-injection environment.
The fixed-seed `random.Random(42)` is a deterministic draw stream
`rngChoice : Nat → Nat`, mapping the index of a `choice` call to the
index it picks (reduced modulo the sequence length). -/

/-- A shape found while scanning existing template slides: a picture
whose blob is readable (`some bytes`) or raises (`none`), or any other
shape. -/
inductive HShape where
  | pic : Option (List Nat) → HShape
  | nonPic : HShape

/-- The raw blobs collected in scan order (slides in order, shapes in
order); a per-shape read failure is swallowed and skipped. -/
def scanBlobs (slides : List (List HShape)) : List (List Nat) :=
  (slides.map (fun shapes => shapes.filterMap (fun sh =>
    match sh with
    | .pic b => b
    | .nonPic => none))).flatten

/-- The dedup-and-cap loop of `collect_template_images`: skip empty
blobs, dedup by byte length, break once `limit` entries are kept. -/
def dedupGo (limit : Nat) : List (List Nat) → List (List Nat) → List Nat → List (List Nat)
  | [], uniq, _ => uniq.reverse
  | b :: bs, uniq, seen =>
    let app := !b.isEmpty && !seen.contains b.length
    let uniq2 := if app then b :: uniq else uniq
    let seen2 := if app then b.length :: seen else seen
    if uniq2.length ≥ limit then uniq2.reverse else dedupGo limit bs uniq2 seen2

/-- Function `collect_template_images`: scan, then dedup by length with a cap. -/
def collect_template_images (slides : List (List HShape)) (limit : Nat) :
    List (List Nat) :=
  dedupGo limit (scanBlobs slides) [] []

/-- First blob of a given byte length in scan order. -/
def firstOfLen (blobs : List (List Nat)) (n : Nat) : Option (List Nat) :=
  (blobs.filter (fun x => x.length = n)).head?

/-- Effective layout name: `getattr(l, 'name', f'layout-{i}') or f'layout-{i}'`
(python-pptx layouts always have a `name` string, so only the falsy-name
fallback is reachable). -/
def effName (i : Nat) (n : String) : String :=
  if n = "" then "layout-" ++ toString i else n

/-- The names list built at the top of `_choose_layout`. -/
def effNames : Nat → List String → List String
  | _, [] => []
  | i, n :: rest => effName i n :: effNames (i + 1) rest

/-- The fixed archetype priority list. -/
def priorityNames : List String :=
  ["Title and Content", "Title and Vertical Text", "Two Content",
   "Title Only", "Section Header", "Content with Caption"]

/-- First index whose name equals the hint case-insensitively. -/
def exactFind (names : List String) (hintLower : String) (i : Nat) : Option Nat :=
  match names with
  | [] => none
  | n :: rest =>
    if pyLower n = hintLower then some i else exactFind rest hintLower (i + 1)

/-- First index whose lower-cased name contains the lower-cased archetype
as a substring. -/
def findSubIdx (names : List String) (want : String) (i : Nat) : Option Nat :=
  match names with
  | [] => none
  | n :: rest =>
    if containsSub (pyLower n).data (pyLower want).data then some i
    else findSubIdx rest want (i + 1)

/-- Archetype scan: first archetype in priority order matching any
layout. -/
def prioFind (names : List String) : List String → Option Nat
  | [] => none
  | w :: ws =>
    match findSubIdx names w 0 with
    | some i => some i
    | none => prioFind names ws

/-- Function `_choose_layout`, returning the index of the chosen layout in
`prs.slide_layouts`; `none` models the `IndexError` raised by the
fallback on an empty layout list. -/
def choose_layout (layouts : List String) (hint : String) : Option Nat :=
  let names := effNames 0 layouts
  match exactFind names (pyLower hint) 0 with
  | some i => some i
  | none =>
    match prioFind names priorityNames with
    | some i => some i
    | none =>
      if layouts.length > 1 then some 1
      else if layouts.length = 1 then some 0
      else none

/-- Layout selection as worded by the specification: (1) first
case-insensitive exact name match, (2) first archetype in priority order
that is a case-insensitive substring of some layout name, (3) the second
layout if at least two exist, else the first. -/
def choose_layout_spec (layouts : List String) (hint : String) : Option Nat :=
  match exactFind layouts (pyLower hint) 0 with
  | some i => some i
  | none =>
    match prioFind layouts priorityNames with
    | some i => some i
    | none =>
      if layouts.length ≥ 2 then some 1
      else if layouts.length = 1 then some 0
      else none

/-- What the builder reads from one layout definition. -/
structure Layout where
  lname : String
  hasTitle : Bool
  titleFontPt : Option ℚ
  hasBody : Bool
  hasPicPh : Bool
deriving DecidableEq

/-- Failure injection for the fallible python-pptx operations: the
harvesting call wrapped in `try` in `build_presentation`, the per-slide
font clamp and picture insertion `try` blocks, and the final `prs.save`. -/
structure BuildEnv where
  harvestFails : Bool
  fontClampFails : Nat → Bool
  picInsertFails : Nat → Bool
  saveFails : Bool

/-- One built output slide as far as the claims observe it. -/
structure SlideOut where
  layoutIdx : Nat
  outTitle : Option String
  titleFont : Option ℚ
  bodyParas : List String
  chosen : Option (List Nat)
  picture : Option (List Nat)
  notesText : String
deriving DecidableEq

/-- Fatal build failures. -/
inductive BuildErr where
  | layoutIndexError : BuildErr
  | saveError : BuildErr
deriving DecidableEq

/-- The per-slide loop of `build_presentation`.  `i` is the slide index
(for failure injection), `k` the number of `rng.choice` draws consumed so
far.  The draw is made before the guarded insertion, so a failed
insertion still consumes it. -/
def buildGo (env : BuildEnv) (rngChoice : Nat → Nat) (layouts : List Layout)
    (images : List (List Nat)) :
    List Slide → Nat → Nat → List SlideOut → Except BuildErr (List SlideOut × Nat)
  | [], _, k, acc => .ok (acc.reverse, k)
  | s :: rest, i, k, acc =>
    match choose_layout (layouts.map Layout.lname) (s.layout_hint.getD "") with
    | none => .error .layoutIndexError
    | some li =>
      match layouts.get? li with
      | none => .error .layoutIndexError
      | some L =>
        let tOut : Option String := if L.hasTitle then some s.title else none
        let tFont : Option ℚ :=
          if L.hasTitle then
            if env.fontClampFails i then L.titleFontPt
            else
              match L.titleFontPt with
              | some sz => if sz > 48 then some 40 else some sz
              | none => none
          else none
        let body : List String := if L.hasBody then s.bullets else []
        let (chosen, picture, k2) :
            Option (List Nat) × Option (List Nat) × Nat :=
          if L.hasPicPh && !images.isEmpty then
            let c := (images.get? (rngChoice k % images.length)).getD []
            (some c, if env.picInsertFails i then none else some c, k + 1)
          else (none, none, k)
        buildGo env rngChoice layouts images rest (i + 1) k2
          (⟨li, tOut, tFont, body, chosen, picture, s.notes.getD ""⟩ :: acc)

/-- The reusable image set actually used by a build: the harvest is
wrapped in `try/except: pass`, so a failure leaves it empty. -/
def imagesOf (env : BuildEnv) (templateScan : List (List HShape)) : List (List Nat) :=
  if env.harvestFails then [] else collect_template_images templateScan 8

/-- Function `build_presentation`: harvest images (best-effort), build each deck
slide in order, then serialise. -/
def build_presentation (env : BuildEnv) (rngChoice : Nat → Nat)
    (layouts : List Layout) (templateScan : List (List HShape))
    (deck : List Slide) : Except BuildErr (List SlideOut) :=
  let images := imagesOf env templateScan
  match buildGo env rngChoice layouts images deck 0 0 [] with
  | .error e => .error e
  | .ok (outs, _) => if env.saveFails then .error .saveError else .ok outs

/-- Whether a deck slide qualifies for a picture draw: its chosen layout
has a picture placeholder and the reusable image set is non-empty. -/
def qualSlide (layouts : List Layout) (images : List (List Nat)) (s : Slide) : Bool :=
  match choose_layout (layouts.map Layout.lname) (s.layout_hint.getD "") with
  | some li =>
    (match layouts.get? li with
     | some L => L.hasPicPh
     | none => false) && !images.isEmpty
  | none => false

/-- Chosen-image assignments as worded by the specification: one draw per
qualifying slide, draws consumed in slide order, `k` the number of draws
already consumed. -/
def chosenSpec (rngChoice : Nat → Nat) (images : List (List Nat)) :
    List Bool → Nat → List (Option (List Nat))
  | [], _ => []
  | q :: rest, k =>
    (if q then some ((images.get? (rngChoice k % images.length)).getD []) else none) ::
      chosenSpec rngChoice images rest (if q then k + 1 else k)

/-! ## Concrete inputs used by witnesses and counterexamples -/

/-- Apostrophe as a one-character string. -/
def apoS : String := String.mk [apos]

/-- A closing/opening markdown fence. -/
def btS : String := String.mk [btick, btick, btick]

/-- The boundary-test input of the specification:
`Here's the answer: {"a": {"slides": []}} done`. -/
def exC3T : String :=
  "Here" ++ apoS ++ "s the answer: \x7b\"a\": \x7b\"slides\": []\x7d\x7d done"

/-- Its full outer greedy brace span. -/
def exC3G : String := "\x7b\"a\": \x7b\"slides\": []\x7d\x7d"

/-- The JSON object denoted by that span. -/
def exC3J : JVal := .jobj [("a", .jobj [("slides", .jarr [])])]

/-- A fenced-JSON input whose surrounding prose also contains a brace. -/
def fxC3T : String :=
  "pre " ++ btS ++ "json \x7b\"slides\": []\x7d " ++ btS ++ " tail \x7bnoise"

/-- The group captured by the fenced pattern on `fxC3T`. -/
def fxC3G : String := "\x7b\"slides\": []\x7d"

/-- A whole string that is valid JSON (an array of two objects) whose
greedy brace span is not: `[{"a":1},{"b":2}]`. -/
def ceC3T : String := "[\x7b\"a\":1\x7d,\x7b\"b\":2\x7d]"

/-- A well-formed OpenAI-compatible response body whose message content
is the JSON object `{"slides":[]}`. -/
def okBodyOpenai : String :=
  "\x7b\"choices\":[\x7b\"message\":\x7b\"content\":\"\x7b\\\"slides\\\":[]\x7d\"\x7d\x7d]\x7d"

/-- Twelve raw bullet values. -/
def bl12 : List JVal :=
  [.jstr "b0", .jstr "b1", .jstr "b2", .jstr "b3", .jstr "b4", .jstr "b5",
   .jstr "b6", .jstr "b7", .jstr "b8", .jstr "b9", .jstr "b10", .jstr "b11"]

/-- The same twelve bullets as strings. -/
def strs12 : List String :=
  ["b0", "b1", "b2", "b3", "b4", "b5", "b6", "b7", "b8", "b9", "b10", "b11"]

/-- A raw slide with twelve bullets. -/
def raw12 : JVal := .jobj [("title", .jstr "T"), ("bullets", .jarr bl12)]

/-- Its validated form: first eight bullets, defaults filled in. -/
def slide12 : Slide :=
  ⟨"T", ["b0", "b1", "b2", "b3", "b4", "b5", "b6", "b7"],
   some "Title and Content", none⟩

/-- A template scan with five picture shapes: one unreadable, one empty,
and a byte-length collision with the first blob. -/
def harvScan : List (List HShape) :=
  [[.pic (some [1, 2]), .pic none, .pic (some [3, 4])],
   [.pic (some [5]), .nonPic, .pic (some [])]]

/-- A one-layout template whose layout accepts title, body and picture. -/
def layC7 : List Layout := [⟨"Title and Content", true, none, true, true⟩]

/-- A one-slide deck with no hints. -/
def deckC7 : List Slide := [⟨"T", [], none, none⟩]

/-- A template scan holding a single readable picture blob. -/
def scanC7 : List (List HShape) := [[.pic (some [7, 7])]]

/-- A build environment in which nothing fails. -/
def envOk : BuildEnv := ⟨false, fun _ => false, fun _ => false, false⟩

/-- A build environment in which every picture insertion fails. -/
def envPicFail : BuildEnv := ⟨false, fun _ => false, fun _ => true, false⟩

/-! ## Theorems -/

/-- A provider string outside the supported set does not dispatch. -/
theorem providerOf_eq_none (provider : String)
    (h : pyLower (pyStrip provider) ∉ (["openai", "anthropic", "gemini"] : List String)) :
    providerOf provider = none := by
  have h1 : ¬ pyLower (pyStrip provider) = "openai" := fun hh => h (by simp [hh])
  have h2 : ¬ pyLower (pyStrip provider) = "anthropic" := fun hh => h (by simp [hh])
  have h3 : ¬ pyLower (pyStrip provider) = "gemini" := fun hh => h (by simp [hh])
  simp [providerOf, h1, h2, h3]

/-- C1 (amended): a provider string whose trimmed, lower-cased form is
outside {openai, anthropic, gemini} makes `generate_slide_outline` raise
the "unsupported provider" configuration error on every attempt with zero
network calls issued; the blanket retry decorator retries it like any
other exception, so the call performs the two backoff sleeps and then
raises a retry-exhaustion error wrapping the unsupported-provider error,
rather than failing immediately. -/
theorem C1_unsupported_provider (provider model apiKey rawText guidance : String)
    (env : Nat → HttpOutcome) (jit : Nat → ℚ)
    (h : pyLower (pyStrip provider) ∉ (["openai", "anthropic", "gemini"] : List String)) :
    generate_slide_outline provider model apiKey rawText guidance env jit
      = (.error (.retryError .unsupportedProvider), 0,
         [tenacityWait 1 (jit 1), tenacityWait 2 (jit 2)]) := by
  have hp := providerOf_eq_none provider h
  simp [generate_slide_outline, retryGo, stepOnce, hp]

/-- C1 witness: the amended behaviour at the concrete provider string
"foo" with a failing transport and zero jitter. -/
theorem C1_witness :
    generate_slide_outline "foo" "" "" "" "" (fun _ => .networkFailure) (fun _ => 0)
      = (.error (.retryError .unsupportedProvider), 0, [1, 2]) := by
  rw [C1_unsupported_provider "foo" "" "" "" "" (fun _ => .networkFailure) (fun _ => 0)
    (by decide)]
  norm_num [tenacityWait]

/-- C1 counterexample: at provider "foo" the call does not fail
immediately with the unsupported-provider error itself — it performs two
backoff sleeps (the waits list is `[1, 2]`, not `[]`) and surfaces a
retry-exhaustion error wrapping the configuration error. -/
theorem C1_counterexample :
    generate_slide_outline "foo" "" "" "" "" (fun _ => .networkFailure) (fun _ => 0)
      = (.error (.retryError .unsupportedProvider), 0, [1, 2])
    ∧ (generate_slide_outline "foo" "" "" "" "" (fun _ => .networkFailure) (fun _ => 0)).2.2 ≠ []
    ∧ (generate_slide_outline "foo" "" "" "" "" (fun _ => .networkFailure) (fun _ => 0)).1
      ≠ .error (.raw .unsupportedProvider) := by
  refine ⟨?_, ?_, ?_⟩
  · simp [generate_slide_outline, retryGo, stepOnce, providerOf, tenacityWait]
    norm_num
  · intro hh
    rw [show (generate_slide_outline "foo" "" "" "" "" (fun _ => .networkFailure)
        (fun _ => 0)).2.2 = [(1 : ℚ), 2] from by
      simp [generate_slide_outline, retryGo, stepOnce, providerOf, tenacityWait]; norm_num] at hh
    cases hh
  · intro hh
    rw [show (generate_slide_outline "foo" "" "" "" "" (fun _ => .networkFailure)
        (fun _ => 0)).1 = .error (.retryError .unsupportedProvider) from rfl] at hh
    cases Except.error.inj hh

/-- C2 (amended): when every attempt of a supported provider call raises,
`generate_slide_outline` makes exactly 3 attempts (3 network calls), the
two sleeps between them follow the exponential jittered backoff
`min(2^(n-1) + jitter, 8)` — so with jitter in [0, 1] they start in [1, 2]
and do not decrease — and after exhaustion a retry-exhaustion error
wrapping the exception raised by the final attempt propagates to the
caller. -/
theorem C2_retry_exhaustion (provider model apiKey rawText guidance : String)
    (env : Nat → HttpOutcome) (jit : Nat → ℚ) (pr : Provider) (e : Nat → AttemptErr)
    (hpr : providerOf provider = some pr)
    (hfail : ∀ k, attemptOnce pr (defaultModel pr model) apiKey
        ⟨SYSTEM_PROMPT, userMessage rawText guidance⟩ (env k) = .error (e k)) :
    generate_slide_outline provider model apiKey rawText guidance env jit
      = (.error (.retryError (e 2)), 3,
         [tenacityWait 1 (jit 1), tenacityWait 2 (jit 2)])
    ∧ (0 ≤ jit 1 → jit 1 ≤ 1 → 0 ≤ jit 2 → jit 2 ≤ 1 →
        1 ≤ tenacityWait 1 (jit 1)
        ∧ tenacityWait 1 (jit 1) ≤ tenacityWait 2 (jit 2)
        ∧ tenacityWait 2 (jit 2) ≤ 8) := by
  constructor
  · simp [generate_slide_outline, retryGo, stepOnce, hpr, hfail 0, hfail 1, hfail 2]
  · intro h10 h11 h20 h21
    have e1 : tenacityWait 1 (jit 1) = 1 + jit 1 := by
      simp only [tenacityWait]
      rw [min_eq_left (by norm_num; linarith), max_eq_right (by norm_num; linarith)]
      norm_num
    have e2 : tenacityWait 2 (jit 2) = 2 + jit 2 := by
      simp only [tenacityWait]
      rw [min_eq_left (by norm_num; linarith), max_eq_right (by norm_num; linarith)]
      norm_num
    rw [e1, e2]
    refine ⟨by linarith, by linarith, by linarith⟩

/-- C2 witness: provider "openai" with a transport that fails every call
and jitter 1/2: three network calls, waits [3/2, 5/2], retry-exhaustion
error wrapping the final network error. -/
theorem C2_witness :
    generate_slide_outline "openai" "" "" "" "" (fun _ => .networkFailure)
        (fun _ => (1 : ℚ) / 2)
      = (.error (.retryError .networkError), 3, [3 / 2, 5 / 2])
    ∧ (1 : ℚ) ≤ 3 / 2 ∧ (3 : ℚ) / 2 ≤ 5 / 2 ∧ (5 : ℚ) / 2 ≤ 8 := by
  have h := C2_retry_exhaustion "openai" "" "" "" "" (fun _ => .networkFailure)
    (fun _ => (1 : ℚ) / 2) .openai (fun _ => .networkError) rfl (fun _ => rfl)
  have hb := h.2 (by norm_num) (by norm_num) (by norm_num) (by norm_num)
  have w1 : tenacityWait 1 ((1 : ℚ) / 2) = 3 / 2 := by
    simp [tenacityWait]; norm_num
  have w2 : tenacityWait 2 ((1 : ℚ) / 2) = 5 / 2 := by
    simp [tenacityWait]; norm_num
  refine ⟨?_, ?_, ?_, ?_⟩
  · rw [h.1, w1, w2]
  · exact w1 ▸ hb.1
  · exact w1 ▸ w2 ▸ hb.2.1
  · exact w2 ▸ hb.2.2

/-- C2 counterexample: with every attempt failing, the error surfaced to
the caller is tenacity's retry-exhaustion error wrapping the final
attempt's exception, not that exception itself propagating. -/
theorem C2_counterexample :
    (generate_slide_outline "openai" "" "" "" "" (fun _ => .networkFailure)
        (fun _ => 0)).1 = .error (.retryError .networkError)
    ∧ (generate_slide_outline "openai" "" "" "" "" (fun _ => .networkFailure)
        (fun _ => 0)).1 ≠ .error (.raw .networkError)
    ∧ (generate_slide_outline "openai" "" "" "" "" (fun _ => .networkFailure)
        (fun _ => 0)).2.1 = 3 := by
  refine ⟨rfl, ?_, rfl⟩
  intro hh
  rw [show (generate_slide_outline "openai" "" "" "" "" (fun _ => .networkFailure)
      (fun _ => 0)).1 = .error (.retryError .networkError) from rfl] at hh
  cases Except.error.inj hh

/-- C3 (amended): JSON extraction tries the fenced-block pattern, then
the greedy brace span from the first opening brace to the last closing
brace, then the whole string — but a later strategy is attempted only
when the earlier pattern fails to match; a matched candidate whose parse
fails raises at once.  On the boundary input
`Here's the answer: {"a": {"slides": []}} done` the greedy span is the
full outer object, which is returned. -/
theorem C3_extraction_order :
    (∀ t g, t ≠ "" → fenceSearch t.data = some g →
      extract_json_maybe t = parseOrFail g)
    ∧ (∀ t g, t ≠ "" → fenceSearch t.data = none → braceGroup t.data = some g →
      extract_json_maybe t = parseOrFail g)
    ∧ (∀ t, t ≠ "" → fenceSearch t.data = none → braceGroup t.data = none →
      extract_json_maybe t = parseOrFail t.data)
    ∧ braceGroup exC3T.data = some exC3G.data
    ∧ extract_json_maybe exC3T = .ok exC3J
    ∧ extract_json_maybe fxC3T = .ok (.jobj [("slides", .jarr [])]) := by
  refine ⟨?_, ?_, ?_, rfl, rfl, rfl⟩
  · intro t g ht hf
    simp [extract_json_maybe, ht, hf]
  · intro t g ht hf hb
    simp [extract_json_maybe, ht, hf, hb]
  · intro t ht hf hb
    simp [extract_json_maybe, ht, hf, hb]

/-- C3 witness: the strategy dispatch applied at concrete inputs — a
fenced input, the boundary prose input (greedy brace strategy), and a
braceless input (whole-string strategy). -/
theorem C3_witness :
    extract_json_maybe fxC3T = parseOrFail fxC3G.data
    ∧ extract_json_maybe exC3T = parseOrFail exC3G.data
    ∧ extract_json_maybe "nope" = parseOrFail "nope".data :=
  ⟨C3_extraction_order.1 fxC3T fxC3G.data (by decide) rfl,
   C3_extraction_order.2.1 exC3T exC3G.data (by decide) rfl rfl,
   C3_extraction_order.2.2.1 "nope" (by decide) rfl rfl⟩

/-- C3 counterexample: on `[{"a":1},{"b":2}]` parsing the whole string
succeeds (strategy 3), but the greedy brace pattern matches first and its
candidate fails to parse, so extraction raises instead of letting the
first successful parse win. -/
theorem C3_counterexample :
    (jsonParse ceC3T).isSome = true
    ∧ braceGroup ceC3T.data = some ("\x7b\"a\":1\x7d,\x7b\"b\":2\x7d".data)
    ∧ extract_json_maybe ceC3T = .error .parseFailed :=
  ⟨rfl, rfl, rfl⟩

/-- With no falsy layout names the effective-names fallback is inert. -/
theorem effNames_id (l : List String) :
    ∀ i, (∀ n ∈ l, n ≠ "") → effNames i l = l := by
  induction l with
  | nil => intro i h; rfl
  | cons n rest ih =>
    intro i h
    have hn : n ≠ "" := h n (List.mem_cons_self n rest)
    simp [effNames, effName, hn, ih (i + 1) (fun m hm => h m (List.mem_cons_of_mem n hm))]

/-- C4: layout selection matches the specification's three-stage rule —
first case-insensitive exact name match, else the first archetype of the
fixed priority list that is a case-insensitive substring of some layout
name (that layout), else the second layout when at least two exist and
the first otherwise — for any template whose layouts have non-empty
names. -/
theorem C4_layout_selection (layouts : List String) (hint : String)
    (h : ∀ n ∈ layouts, n ≠ "") :
    choose_layout layouts hint = choose_layout_spec layouts hint := by
  have he := effNames_id layouts 0 h
  simp only [choose_layout, choose_layout_spec, he]
  rcases hx : exactFind layouts (pyLower hint) 0 with _ | i
  · rcases hp : prioFind layouts priorityNames with _ | j
    · simp only [hx, hp]
      by_cases hlen : layouts.length > 1
      · have h2 : layouts.length ≥ 2 := by omega
        simp [hlen, h2]
      · have h2 : ¬ layouts.length ≥ 2 := by omega
        simp [hlen, h2]
    · simp [hx, hp]
  · simp [hx]

/-- C4 witness: the two layout-selection test vectors of the
specification — a wrong-case hint selects the exact-match layout, and a
hint matching nothing falls back to the second layout. -/
theorem C4_witness :
    choose_layout ["Title and Content", "Blank"] "title and content"
      = choose_layout_spec ["Title and Content", "Blank"] "title and content"
    ∧ choose_layout ["Title and Content", "Blank"] "title and content" = some 0
    ∧ choose_layout ["Custom1", "Custom2"] "Nonexistent Layout"
      = choose_layout_spec ["Custom1", "Custom2"] "Nonexistent Layout"
    ∧ choose_layout ["Custom1", "Custom2"] "Nonexistent Layout" = some 1
    ∧ choose_layout ["OnlyOne"] "Nonexistent Layout" = some 0 :=
  ⟨C4_layout_selection ["Title and Content", "Blank"] "title and content" (by decide),
   by decide,
   C4_layout_selection ["Custom1", "Custom2"] "Nonexistent Layout" (by decide),
   by decide, by decide⟩

/-- C5: any slide accepted by schema validation carries exactly the first
`min(n, 8)` of its input bullets, in their original order. -/
theorem C5_bullets_clamp (raw : JVal) (s : Slide) (fs : List (String × JVal))
    (bl : List JVal) (strs : List String)
    (hraw : raw = .jobj fs)
    (hb : jLookup fs "bullets" = some (.jarr bl))
    (hstrs : bl.mapM asStr = some strs)
    (hv : validateSlide raw = some s) :
    s.bullets = strs.take (min strs.length 8)
    ∧ s.bullets.length = min strs.length 8
    ∧ ∀ i, i < min strs.length 8 → s.bullets[i]? = strs[i]? := by
  subst hraw
  simp only [validateSlide, hb, hstrs] at hv
  have hbul : s.bullets = clamp_bullets strs := by
    split at hv
    · split at hv
      · split at hv
        · cases hv
          rfl
        · cases hv
      · cases hv
    · cases hv
  rw [hbul]
  refine ⟨?_, ?_, ?_⟩
  · simp only [clamp_bullets]
    rw [List.take_eq_take]
    omega
  · simp only [clamp_bullets, List.length_take]
    omega
  · intro i hi
    exact List.getElem?_take_of_lt (by omega)

/-- C5 witness: a slide with twelve bullets validates to exactly the
first eight, in order. -/
theorem C5_witness :
    validateSlide raw12 = some slide12
    ∧ slide12.bullets = strs12.take (min strs12.length 8)
    ∧ slide12.bullets.length = 8
    ∧ slide12.bullets = ["b0", "b1", "b2", "b3", "b4", "b5", "b6", "b7"] :=
  ⟨rfl,
   (C5_bullets_clamp raw12 slide12 _ bl12 strs12 rfl rfl rfl rfl).1,
   by decide, by decide⟩

/-- A list is a prefix of itself followed by anything. -/
theorem startsWithL_self_append (n z : List Char) : startsWithL n (n ++ z) = true := by
  induction n with
  | nil => rfl
  | cons a as ih => simp [startsWithL, ih]

/-- A list occurs in itself followed by anything. -/
theorem containsSub_self_append (n z : List Char) : containsSub (n ++ z) n = true := by
  cases n with
  | nil =>
    cases z with
    | nil => rfl
    | cons c rest => simp [containsSub, startsWithL]
  | cons a as => simp [containsSub, startsWithL, startsWithL_self_append as z]

/-- Substring containment is preserved by prepending. -/
theorem containsSub_append_left (x y n : List Char) (h : containsSub y n = true) :
    containsSub (x ++ y) n = true := by
  induction x with
  | nil => simpa using h
  | cons a as ih => simp [containsSub, ih]

/-- A list occurs in itself. -/
theorem containsSub_self (n : List Char) : containsSub n n = true := by
  have := containsSub_self_append n []
  simpa using this

/-- C6 (amended): every HTTP response with status code at least 400 makes
each provider call strategy raise an error whose message embeds the
provider label, the status code and at most the first 500 characters of
the response body, and which preserves the original request and response
objects.  (The source's guard is `status_code >= 400`, not "non-2xx".) -/
theorem C6_provider_http_error (pr : Provider) (model apiKey : String) (p : Payload)
    (r : HttpResponse) (h : 400 ≤ r.status) :
    attemptOnce pr model apiKey p (.response r)
      = .error (.httpStatus (providerErrorMessage (labelOf pr) r)
          (requestOf pr model apiKey p) r)
    ∧ (pyTake r.body 500).length ≤ 500
    ∧ containsSub (providerErrorMessage (labelOf pr) r).data (labelOf pr).data = true
    ∧ containsSub (providerErrorMessage (labelOf pr) r).data (toString r.status).data = true
    ∧ containsSub (providerErrorMessage (labelOf pr) r).data (pyTake r.body 500).data = true := by
  refine ⟨by simp [attemptOnce, h], ?_, ?_, ?_, ?_⟩
  · simp only [pyTake, String.length, List.length_take]
    omega
  · simp only [providerErrorMessage, String.data_append, List.append_assoc]
    exact containsSub_self_append _ _
  · simp only [providerErrorMessage, String.data_append, List.append_assoc]
    refine containsSub_append_left _ _ _ ?_
    refine containsSub_append_left _ _ _ ?_
    exact containsSub_self_append _ _
  · simp only [providerErrorMessage, String.data_append, List.append_assoc]
    refine containsSub_append_left _ _ _ ?_
    refine containsSub_append_left _ _ _ ?_
    refine containsSub_append_left _ _ _ ?_
    refine containsSub_append_left _ _ _ ?_
    exact containsSub_self _

/-- C6 witness: a 503 response with body "boom" at the OpenAI-compatible
strategy. -/
theorem C6_witness :
    attemptOnce .openai "m" "k" ⟨"sys", "usr"⟩ (.response ⟨503, "boom"⟩)
      = .error (.httpStatus "OpenAI-compatible HTTP 503: boom"
          ⟨"https://api.openai.com/v1/chat/completions", "usr"⟩ ⟨503, "boom"⟩)
    ∧ containsSub ("OpenAI-compatible HTTP 503: boom").data ("503").data = true := by
  have h := C6_provider_http_error .openai "m" "k" ⟨"sys", "usr"⟩ ⟨503, "boom"⟩ (by decide)
  refine ⟨?_, by decide⟩
  rw [h.1]
  rfl

/-- C6 counterexample: a 302 response — non-2xx — does not raise the
provider error at all: with a well-formed body the OpenAI-compatible
strategy succeeds, because the source only rejects `status_code >= 400`. -/
theorem C6_counterexample :
    (300 ≤ 302 ∧ 302 < 400)
    ∧ attemptOnce .openai "m" "k" ⟨"sys", "usr"⟩ (.response ⟨302, okBodyOpenai⟩)
      = .ok (.jobj [("slides", .jarr [])]) :=
  ⟨by decide, rfl⟩

/-- Master invariant of the dedup-and-cap loop: starting strictly below
the cap with `seen` holding exactly the lengths of the kept prefix, the
loop appends a tail `T` of blobs that is a sublist of the remaining scan,
pairwise distinct in length, disjoint from `seen`, made of non-empty
first-of-their-length blobs, and respecting the cap. -/
theorem dedupGo_spec (limit : Nat) :
    ∀ (bs uniq : List (List Nat)) (seen : List Nat),
      seen = uniq.map List.length →
      uniq.length < limit →
      ∃ T, dedupGo limit bs uniq seen = uniq.reverse ++ T
        ∧ T.Sublist bs
        ∧ T.Pairwise (fun a b => a.length ≠ b.length)
        ∧ (∀ t ∈ T, t ≠ [] ∧ t.length ∉ seen
            ∧ (bs.filter (fun x => x.length = t.length)).head? = some t)
        ∧ uniq.length + T.length ≤ limit := by
  intro bs
  induction bs with
  | nil =>
    intro uniq seen hseen hlen
    refine ⟨[], by simp [dedupGo], List.nil_sublist _, List.Pairwise.nil, ?_, by simp; omega⟩
    intro t ht
    cases ht
  | cons b bs ih =>
    intro uniq seen hseen hlen
    by_cases happ : (!b.isEmpty && !seen.contains b.length) = true
    · have h1 := (Bool.and_eq_true _ _ |>.mp happ).1
      have hbne : b ≠ [] := by
        intro h0
        subst h0
        simp at h1
      have hbnot : b.length ∉ seen := by
        have h2 := (Bool.and_eq_true _ _ |>.mp happ).2
        simpa using h2
      by_cases hbreak : (b :: uniq).length ≥ limit
      · have hlim : uniq.length + 1 = limit := by
          simp at hbreak
          omega
        refine ⟨[b], ?_, (List.nil_sublist bs).cons₂ b, List.pairwise_singleton _ _, ?_,
          by simp; omega⟩
        · simp only [dedupGo, happ, if_true]
          rw [if_pos (by simpa using hbreak)]
          simp
        · intro t ht
          rcases List.mem_singleton.mp ht with rfl
          refine ⟨hbne, hbnot, ?_⟩
          rw [List.filter_cons_of_pos (by simp)]
          rfl
      · have hlt2 : (b :: uniq).length < limit := by
          simp at hbreak ⊢
          omega
        obtain ⟨T, hR, hSub, hPw, hMem, hLen⟩ :=
          ih (b :: uniq) (b.length :: seen) (by simp [hseen]) hlt2
        refine ⟨b :: T, ?_, hSub.cons₂ b, ?_, ?_, ?_⟩
        · simp only [dedupGo, happ, if_true]
          rw [if_neg (by simpa using hbreak)]
          rw [hR]
          simp
        · rw [List.pairwise_cons]
          refine ⟨fun t ht => ?_, hPw⟩
          have := (hMem t ht).2.1
          intro heq
          exact this (heq ▸ List.mem_cons_self _ _)
        · intro t ht
          rcases List.mem_cons.mp ht with rfl | ht2
          · refine ⟨hbne, hbnot, ?_⟩
            rw [List.filter_cons_of_pos (by simp)]
            rfl
          · obtain ⟨htne, htnot, hthead⟩ := hMem t ht2
            have htb : t.length ≠ b.length := fun heq => htnot (heq ▸ List.mem_cons_self _ _)
            refine ⟨htne, fun hmem => htnot (List.mem_cons_of_mem _ hmem), ?_⟩
            rw [List.filter_cons_of_neg (by simp [htb.symm])]
            exact hthead
        · simp at hLen ⊢
          omega
    · have happf : (!b.isEmpty && !seen.contains b.length) = false := by
        revert happ
        cases (!b.isEmpty && !seen.contains b.length) <;> simp
      have hcase : b = [] ∨ b.length ∈ seen := by
        rcases Bool.and_eq_false_iff.mp happf with h1 | h2
        · left
          simpa [List.isEmpty_iff] using h1
        · right
          simpa using h2
      obtain ⟨T, hR, hSub, hPw, hMem, hLen⟩ := ih uniq seen hseen hlen
      refine ⟨T, ?_, hSub.cons b, hPw, ?_, hLen⟩
      · simp only [dedupGo, happf, if_false]
        rw [if_neg (by simp; omega)]
        exact hR
      · intro t ht
        obtain ⟨htne, htnot, hthead⟩ := hMem t ht
        have htb : t.length ≠ b.length := by
          rcases hcase with rfl | hin
          · simpa [List.length_eq_zero] using htne
          · exact fun heq => htnot (heq ▸ hin)
        refine ⟨htne, htnot, ?_⟩
        rw [List.filter_cons_of_neg (by simp [htb.symm])]
        exact hthead

/-- C9: the reusable image set contains at most 8 blobs, its elements
have pairwise-distinct byte lengths, the set is a sublist of the scan
(first-occurrence order preserved), and each element is the first blob of
its byte length encountered in scan order. -/
theorem C9_image_harvest (slides : List (List HShape)) :
    (collect_template_images slides 8).length ≤ 8
    ∧ (collect_template_images slides 8).Pairwise (fun a b => a.length ≠ b.length)
    ∧ (collect_template_images slides 8).Sublist (scanBlobs slides)
    ∧ ∀ b ∈ collect_template_images slides 8,
        b ≠ [] ∧ firstOfLen (scanBlobs slides) b.length = some b := by
  obtain ⟨T, hR, hSub, hPw, hMem, hLen⟩ :=
    dedupGo_spec 8 (scanBlobs slides) [] [] rfl (by norm_num)
  have hcoll : collect_template_images slides 8 = T := by
    simpa [collect_template_images] using hR
  rw [hcoll]
  refine ⟨by simpa using hLen, hPw, hSub, fun b hb => ?_⟩
  obtain ⟨hne, _, hhead⟩ := hMem b hb
  exact ⟨hne, by simpa [firstOfLen] using hhead⟩

/-- C9 witness: on a concrete scan with an unreadable shape, an empty
blob and a byte-length collision, the harvest keeps the two first-of-
their-length non-empty blobs in order. -/
theorem C9_witness :
    collect_template_images harvScan 8 = [[1, 2], [5]]
    ∧ (collect_template_images harvScan 8).length ≤ 8
    ∧ ([1, 2] ≠ ([] : List Nat)
        ∧ firstOfLen (scanBlobs harvScan) ([1, 2] : List Nat).length = some [1, 2]) :=
  ⟨rfl, (C9_image_harvest harvScan).1,
   (C9_image_harvest harvScan).2.2.2 [1, 2] (by decide)⟩

/-- Effective naming preserves the number of layouts. -/
theorem effNames_length : ∀ (i : Nat) (l : List String), (effNames i l).length = l.length := by
  intro i l
  induction l generalizing i with
  | nil => rfl
  | cons n rest ih => simp [effNames, ih]

/-- An exact-match hit is an index below the end of the scanned range. -/
theorem exactFind_lt (hintLower : String) :
    ∀ (names : List String) (i j : Nat),
      exactFind names hintLower i = some j → j < i + names.length := by
  intro names
  induction names with
  | nil => intro i j h; cases h
  | cons n rest ih =>
    intro i j h
    simp only [exactFind] at h
    by_cases hc : pyLower n = hintLower
    · rw [if_pos hc] at h
      cases h
      simp
    · rw [if_neg hc] at h
      have := ih (i + 1) j h
      simp at this ⊢
      omega

/-- A substring hit is an index below the end of the scanned range. -/
theorem findSubIdx_lt (want : String) :
    ∀ (names : List String) (i j : Nat),
      findSubIdx names want i = some j → j < i + names.length := by
  intro names
  induction names with
  | nil => intro i j h; cases h
  | cons n rest ih =>
    intro i j h
    simp only [findSubIdx] at h
    by_cases hc : containsSub (pyLower n).data (pyLower want).data = true
    · rw [if_pos hc] at h
      cases h
      simp
    · rw [if_neg hc] at h
      have := ih (i + 1) j h
      simp at this ⊢
      omega

/-- An archetype hit is a valid layout index. -/
theorem prioFind_lt (names : List String) :
    ∀ (ws : List String) (j : Nat), prioFind names ws = some j → j < names.length := by
  intro ws
  induction ws with
  | nil => intro j h; cases h
  | cons w ws ih =>
    intro j h
    simp only [prioFind] at h
    rcases hf : findSubIdx names w 0 with _ | i
    · rw [hf] at h
      exact ih j h
    · rw [hf] at h
      cases h
      have := findSubIdx_lt w names 0 _ hf
      omega

/-- Any index returned by layout selection is in range. -/
theorem choose_layout_lt (layouts : List String) (hint : String) (j : Nat)
    (h : choose_layout layouts hint = some j) : j < layouts.length := by
  simp only [choose_layout] at h
  rcases hx : exactFind (effNames 0 layouts) (pyLower hint) 0 with _ | i
  · rw [hx] at h
    rcases hp : prioFind (effNames 0 layouts) priorityNames with _ | i2
    · rw [hp] at h
      by_cases h1 : layouts.length > 1
      · rw [if_pos h1] at h
        cases h
        omega
      · rw [if_neg h1] at h
        by_cases h2 : layouts.length = 1
        · rw [if_pos h2] at h
          cases h
          omega
        · rw [if_neg h2] at h
          cases h
    · rw [hp] at h
      cases h
      have := prioFind_lt (effNames 0 layouts) priorityNames j hp
      rwa [effNames_length] at this
  · rw [hx] at h
    cases h
    have := exactFind_lt (pyLower hint) (effNames 0 layouts) 0 j hx
    rw [effNames_length] at this
    omega

/-- On a non-empty layout list, layout selection always succeeds with an
in-range index. -/
theorem choose_layout_some (layouts : List String) (hint : String)
    (h : layouts ≠ []) :
    ∃ j, choose_layout layouts hint = some j ∧ j < layouts.length := by
  rcases hc : choose_layout layouts hint with _ | j
  · exfalso
    simp only [choose_layout] at hc
    rcases hx : exactFind (effNames 0 layouts) (pyLower hint) 0 with _ | i
    · rw [hx] at hc
      rcases hp : prioFind (effNames 0 layouts) priorityNames with _ | i2
      · rw [hp] at hc
        have hlen : layouts.length ≠ 0 := by
          simpa [List.length_eq_zero] using h
        by_cases h1 : layouts.length > 1
        · rw [if_pos h1] at hc
          cases hc
        · rw [if_neg h1] at hc
          by_cases h2 : layouts.length = 1
          · rw [if_pos h2] at hc
            cases hc
          · omega
      · rw [hp] at hc
        cases hc
    · rw [hx] at hc
      cases hc
  · exact ⟨j, rfl, choose_layout_lt layouts hint j hc⟩

/-- With at least one layout available, the per-slide loop never fails,
whatever the cosmetic failure injection. -/
theorem buildGo_ok (env : BuildEnv) (rng : Nat → Nat) (layouts : List Layout)
    (images : List (List Nat)) (hl : layouts ≠ []) :
    ∀ (deck : List Slide) (i k : Nat) (acc : List SlideOut),
      ∃ outs k2, buildGo env rng layouts images deck i k acc = .ok (outs, k2) := by
  intro deck
  induction deck with
  | nil =>
    intro i k acc
    exact ⟨acc.reverse, k, rfl⟩
  | cons s rest ih =>
    intro i k acc
    have hnames : layouts.map Layout.lname ≠ [] := by simpa using hl
    obtain ⟨li, hli, hlt⟩ :=
      choose_layout_some (layouts.map Layout.lname) (s.layout_hint.getD "") hnames
    rw [List.length_map] at hlt
    have hg : layouts.get? li = some (layouts.get ⟨li, hlt⟩) := List.get?_eq_get hlt
    simp only [buildGo, hli, hg]
    exact ih _ _ _

/-- The chosen-image column of the per-slide loop: one draw per
qualifying slide, draws consumed in slide order starting at draw `k`. -/
theorem buildGo_chosen (env : BuildEnv) (rng : Nat → Nat) (layouts : List Layout)
    (images : List (List Nat)) :
    ∀ (deck : List Slide) (i k : Nat) (acc outs : List SlideOut) (k2 : Nat),
      buildGo env rng layouts images deck i k acc = .ok (outs, k2) →
      outs.map SlideOut.chosen
        = acc.reverse.map SlideOut.chosen
          ++ chosenSpec rng images (deck.map (qualSlide layouts images)) k := by
  intro deck
  induction deck with
  | nil =>
    intro i k acc outs k2 h
    simp only [buildGo] at h
    cases h
    simp [chosenSpec]
  | cons s rest ih =>
    intro i k acc outs k2 h
    simp only [buildGo] at h
    rcases hli : choose_layout (layouts.map Layout.lname) (s.layout_hint.getD "")
      with _ | li
    · simp only [hli] at h
      cases h
    · simp only [hli] at h
      rcases hL : layouts.get? li with _ | L
      · simp only [hL] at h
        cases h
      · simp only [hL] at h
        by_cases hq : (L.hasPicPh && !images.isEmpty) = true
        · simp only [hq, if_true] at h
          have hrec := ih _ _ _ _ _ h
          rw [hrec]
          have hL2 : layouts[li]? = some L := by
            rw [← List.get?_eq_getElem?]
            exact hL
          obtain ⟨hq1, hq2⟩ := (Bool.and_eq_true _ _).mp hq
          simp [qualSlide, hli, hL, hL2, hq1, hq2, chosenSpec, List.map_append]
        · have hqf : (L.hasPicPh && !images.isEmpty) = false := by
            revert hq
            cases (L.hasPicPh && !images.isEmpty) <;> simp
          simp only [hqf, if_false] at h
          have hrec := ih _ _ _ _ _ h
          rw [hrec]
          have hL2 : layouts[li]? = some L := by
            rw [← List.get?_eq_getElem?]
            exact hL
          simp [qualSlide, hli, hL, hL2, hqf, chosenSpec, List.map_append]

/-- C7: picture choice is deterministic.  The draw stream is seeded with
the fixed constant 42 at the start of every build, so every build uses
the one stream `rngChoice`; the chosen-image column of a successful build
equals the closed form that consumes exactly one draw per qualifying
slide, in slide order; hence two independent builds of the same deck
against the same template — even with different cosmetic failure
injections — produce identical chosen-image-per-slide assignments. -/
theorem C7_picture_determinism :
    (∀ env rngChoice layouts scan deck outs,
       build_presentation env rngChoice layouts scan deck = .ok outs →
       outs.map SlideOut.chosen
         = chosenSpec rngChoice (imagesOf env scan)
             (deck.map (qualSlide layouts (imagesOf env scan))) 0)
    ∧ (∀ env1 env2 rngChoice layouts scan deck outs1 outs2,
       env1.harvestFails = env2.harvestFails →
       build_presentation env1 rngChoice layouts scan deck = .ok outs1 →
       build_presentation env2 rngChoice layouts scan deck = .ok outs2 →
       outs1.map SlideOut.chosen = outs2.map SlideOut.chosen) := by
  have main : ∀ env rngChoice layouts scan deck outs,
      build_presentation env rngChoice layouts scan deck = .ok outs →
      outs.map SlideOut.chosen
        = chosenSpec rngChoice (imagesOf env scan)
            (deck.map (qualSlide layouts (imagesOf env scan))) 0 := by
    intro env rngChoice layouts scan deck outs h
    simp only [build_presentation] at h
    rcases hb : buildGo env rngChoice layouts (imagesOf env scan) deck 0 0 []
      with he | ⟨outs2, k2⟩
    · simp only [hb] at h
      cases h
    · simp only [hb] at h
      by_cases hs : env.saveFails = true
      · simp [hs] at h
      · simp only [Bool.not_eq_true] at hs
        simp only [hs, if_false] at h
        cases h
        have := buildGo_chosen env rngChoice layouts (imagesOf env scan) deck 0 0 []
          _ _ hb
        simpa using this
  refine ⟨main, ?_⟩
  intro env1 env2 rngChoice layouts scan deck outs1 outs2 hh h1 h2
  have e1 := main env1 rngChoice layouts scan deck outs1 h1
  have e2 := main env2 rngChoice layouts scan deck outs2 h2
  have him : imagesOf env1 scan = imagesOf env2 scan := by
    simp [imagesOf, hh]
  rw [e1, e2, him]

/-- C7 witness: two builds of the same one-slide deck against the same
one-layout template, one with a failing picture insertion, produce the
same chosen-image assignment `[some [7, 7]]`. -/
theorem C7_witness :
    build_presentation envOk (fun _ => 0) layC7 scanC7 deckC7
      = .ok [⟨0, some "T", none, [], some [7, 7], some [7, 7], ""⟩]
    ∧ build_presentation envPicFail (fun _ => 0) layC7 scanC7 deckC7
      = .ok [⟨0, some "T", none, [], some [7, 7], none, ""⟩]
    ∧ ([⟨0, some "T", none, [], some [7, 7], some [7, 7], ""⟩] : List SlideOut).map
        SlideOut.chosen
      = ([⟨0, some "T", none, [], some [7, 7], none, ""⟩] : List SlideOut).map
        SlideOut.chosen := by
  refine ⟨rfl, rfl, ?_⟩
  exact C7_picture_determinism.2 envOk envPicFail (fun _ => 0) layC7 scanC7 deckC7
    _ _ rfl rfl rfl

/-- C8: the only modelled operations whose failure aborts the whole build
are layout-list retrieval (the empty-layout-list index error) and final
serialisation; the per-slide cosmetic steps — title font clamping,
picture insertion and image harvesting — are swallowed for every failure
injection, each independently of the others. -/
theorem C8_failure_semantics :
    (∀ env rngChoice layouts scan deck, layouts ≠ [] → env.saveFails = false →
       ∃ outs, build_presentation env rngChoice layouts scan deck = .ok outs)
    ∧ (∀ env rngChoice layouts scan deck, layouts ≠ [] → env.saveFails = true →
       build_presentation env rngChoice layouts scan deck = .error .saveError)
    ∧ (∀ env rngChoice scan deck, deck ≠ [] →
       build_presentation env rngChoice [] scan deck = .error .layoutIndexError) := by
  refine ⟨?_, ?_, ?_⟩
  · intro env rngChoice layouts scan deck hl hs
    obtain ⟨outs, k2, hb⟩ := buildGo_ok env rngChoice layouts (imagesOf env scan) hl
      deck 0 0 []
    exact ⟨outs, by simp [build_presentation, hb, hs]⟩
  · intro env rngChoice layouts scan deck hl hs
    obtain ⟨outs, k2, hb⟩ := buildGo_ok env rngChoice layouts (imagesOf env scan) hl
      deck 0 0 []
    simp [build_presentation, hb, hs]
  · intro env rngChoice scan deck hd
    rcases deck with _ | ⟨s, rest⟩
    · cases hd rfl
    · have h0 : choose_layout [] (s.layout_hint.getD "") = none := rfl
      simp [build_presentation, buildGo, h0]

/-- C8 witness: with one layout, a build in which harvesting, every font
clamp and every picture insertion fail still succeeds; a failing save
aborts with the save error; an empty layout list aborts with the index
error. -/
theorem C8_witness :
    (∃ outs, build_presentation ⟨true, fun _ => true, fun _ => true, false⟩
        (fun _ => 0) layC7 scanC7 deckC7 = .ok outs)
    ∧ build_presentation ⟨false, fun _ => false, fun _ => false, true⟩
        (fun _ => 0) layC7 scanC7 deckC7 = .error .saveError
    ∧ build_presentation envPicFail (fun _ => 0) [] scanC7 deckC7
        = .error .layoutIndexError :=
  ⟨C8_failure_semantics.1 ⟨true, fun _ => true, fun _ => true, false⟩ (fun _ => 0)
      layC7 scanC7 deckC7 (by decide) rfl,
   C8_failure_semantics.2.1 ⟨false, fun _ => false, fun _ => false, true⟩ (fun _ => 0)
      layC7 scanC7 deckC7 (by decide) rfl,
   C8_failure_semantics.2.2 envPicFail (fun _ => 0) scanC7 deckC7 (by decide)⟩

/-- C10: with an empty layout list, layout selection always fails (the
fallback indexes position 0 of the empty list), so `build_presentation`
raises for any deck with at least one slide; the fallback is total
exactly on templates with at least one layout. -/
theorem C10_empty_layout_list :
    (∀ hint, choose_layout [] hint = none)
    ∧ (∀ env rngChoice scan deck, deck ≠ [] →
        build_presentation env rngChoice [] scan deck = .error .layoutIndexError)
    ∧ (∀ layouts hint, layouts ≠ [] → (choose_layout layouts hint).isSome = true) := by
  refine ⟨fun hint => rfl, ?_, ?_⟩
  · intro env rngChoice scan deck hd
    rcases deck with _ | ⟨s, rest⟩
    · cases hd rfl
    · have h0 : choose_layout [] (s.layout_hint.getD "") = none := rfl
      simp [build_presentation, buildGo, h0]
  · intro layouts hint hl
    obtain ⟨j, hj, _⟩ := choose_layout_some layouts hint hl
    simp [hj]

/-- C10 witness: the empty-template failure at a concrete one-slide
deck, and totality of the fallback on a concrete one-layout template. -/
theorem C10_witness :
    choose_layout [] "anything" = none
    ∧ build_presentation envOk (fun _ => 0) [] scanC7 deckC7
        = .error .layoutIndexError
    ∧ (choose_layout ["OnlyOne"] "zzz").isSome = true :=
  ⟨C10_empty_layout_list.1 "anything",
   C10_empty_layout_list.2.1 envOk (fun _ => 0) scanC7 deckC7 (by decide),
   C10_empty_layout_list.2.2 ["OnlyOne"] "zzz" (by decide)⟩
